import Mathlib

/-!
Verification of the gregorio-lsp GABC/NABC analyzer.

This file embeds, at the level of strings and character lists, the parts of
the repository's parser and validators that the claims concern:

* `GABCParser.parseNoteGroups` / snippet splitting on the pipe character,
* `GABCParser.shouldSnippetBeNabc` and `GABCParser.isNabcSnippet`,
* `GABCParser.validateAlternation`,
* `GABCParser.validateTags` (the tag-nesting stack machine),
* `GABCParser.detectNABC`, `GABCParser.parseMusicSection` and the
  quilisma checks of `GABCValidator`,
* the fallback document splitter of `GABCParser.fallbackParse`,
* the pitch-descriptor path of `NABCValidator`,
* the `success` computation of `ParseResult`.

JavaScript regular expressions used by the source are translated into
explicit decidable scanners over `List Char`; each scanner is annotated with
the regex it implements.  Ranges (line/column bookkeeping) carried by the
source's AST nodes are omitted: no claim concerns source positions.
Diagnostic severities use the LSP numbering of the source: 1 = Error,
2 = Warning, 3 = Information.
-/

namespace GregorioLSP

/-! ### Character classes -/

def isLowerAlpha (c : Char) : Bool := 'a' ≤ c && c ≤ 'z'

def isUpperAlpha (c : Char) : Bool := 'A' ≤ c && c ≤ 'Z'

def isAlphaC (c : Char) : Bool := isLowerAlpha c || isUpperAlpha c

def isDigitC (c : Char) : Bool := '0' ≤ c && c ≤ '9'

/-- JavaScript regex word character (`\w`): `[A-Za-z0-9_]`. -/
def isWordChar (c : Char) : Bool := isAlphaC c || isDigitC c || c == '_'

/-- The backtick character, written via its code point. -/
def backtick : Char := Char.ofNat 96

/-- `String.prototype.trim` (ASCII whitespace; the inputs of this
development contain no exotic Unicode spaces). -/
def jsTrim (s : String) : String :=
  String.mk (((s.data.dropWhile Char.isWhitespace).reverse.dropWhile
    Char.isWhitespace).reverse)

/-- `String.prototype.toLowerCase` (character-wise). -/
def jsToLower (s : String) : String := String.mk (s.data.map Char.toLower)

/-- Does the string contain the character? -/
def containsChar (s : String) (c : Char) : Bool := s.data.any (fun d => d == c)

def jsJoinStrCore (sep : List Char) : List (List Char) → List Char
  | [] => []
  | [g] => g
  | g :: gs => g ++ sep ++ jsJoinStrCore sep gs

/-- `Array.prototype.join` with a string separator. -/
def jsJoinStr (sep : String) (parts : List String) : String :=
  String.mk (jsJoinStrCore sep.data (parts.map String.data))

/-! ### Generic scanners over character lists -/

/-- `anySuffix p l` holds when `p` accepts some suffix of `l`; this is how a
JavaScript `pattern.test(s)` (existence of a match anywhere) is modelled for
patterns that only constrain a prefix of the remaining input. -/
def anySuffix (p : List Char → Bool) : List Char → Bool
  | [] => p []
  | c :: rest => p (c :: rest) || anySuffix p rest

/-- Does `pat` occur as a prefix of `l`? -/
def startsWithL : List Char → List Char → Bool
  | [], _ => true
  | _ :: _, [] => false
  | p :: ps, c :: cs => p == c && startsWithL ps cs

/-- Does `pat` occur as a contiguous substring of `l`? -/
def hasSubstr (pat : List Char) (l : List Char) : Bool :=
  anySuffix (startsWithL pat) l

/-! ### Splitting and joining on a separator character

`String.prototype.split` with a single-character separator splits on every
occurrence and preserves empty substrings; `Array.prototype.join` interleaves
the separator.  `splitCharCore`/`joinCharCore` are the character-level
versions used throughout. -/

def splitCharCore (sep : Char) : List Char → List (List Char)
  | [] => [[]]
  | c :: rest =>
    match splitCharCore sep rest with
    | [] => [[]]
    | g :: gs => if c == sep then [] :: g :: gs else (c :: g) :: gs

def joinCharCore (sep : Char) : List (List Char) → List Char
  | [] => []
  | [g] => g
  | g :: gs => g ++ sep :: joinCharCore sep gs

/-- `String` version of single-character split (JS `s.split(sep)`). -/
def jsSplitChar (sep : Char) (s : String) : List String :=
  (splitCharCore sep s.data).map String.mk

/-- `String` version of join (JS `parts.join(sep)`). -/
def jsJoinChar (sep : Char) (parts : List String) : String :=
  String.mk (joinCharCore sep (parts.map String.data))

/-! ### Snippet splitting (`GABCParser.parseNoteGroups`)

```js
if (musicContent.includes('|')) { snippets = musicContent.split('|'); }
else { snippets = [musicContent]; }
groups.push({ snippets });
```
-/

def splitSnippets (musicContent : String) : List String :=
  if containsChar musicContent '|' then jsSplitChar '|' musicContent
  else [musicContent]

/-- `parseNoteGroups` always returns a single group holding `splitSnippets`. -/
def parseNoteGroups (musicContent : String) : List (List String) :=
  [splitSnippets musicContent]

/-! ### JS `parseInt(x, 10)` and the alternation period

`validateAlternation` computes
`parseInt((nabcConfig.headerValue || '0').replace(/;$/, ''), 10)`.
`jsParseInt` returns `none` for `NaN`. -/

def jsParseIntDigits (acc : Int) : List Char → Int
  | [] => acc
  | c :: rest =>
    if isDigitC c then jsParseIntDigits (acc * 10 + ((c.toNat : Int) - 48)) rest
    else acc

def jsParseIntCore : List Char → Option Int
  | [] => none
  | c :: rest =>
    if c.isWhitespace then jsParseIntCore rest
    else
      let (sign, digits) : Int × List Char :=
        if c == '-' then (-1, rest)
        else if c == '+' then (1, rest)
        else (1, c :: rest)
      match digits with
      | d :: _ => if isDigitC d then some (sign * jsParseIntDigits 0 digits) else none
      | [] => none

def jsParseInt (s : String) : Option Int := jsParseIntCore s.data

/-- `.replace(/;$/, '')`: remove one trailing semicolon, if present. -/
def stripTrailingSemi (s : String) : String :=
  match s.data.getLast? with
  | some c => if c == ';' then String.mk s.data.dropLast else s
  | none => s

/-! ### `GABCParser.shouldSnippetBeNabc`

```js
if (alternationPeriod === 0) return false;
if (snippetIndex === 0) return false;
const blockIndex = Math.floor((snippetIndex - 1) / alternationPeriod);
return blockIndex % 2 === 0;
```
`Math.floor` of a quotient is `Int.fdiv`; the JS remainder test
`blockIndex % 2 === 0` agrees with `% 2 == 0` on `Int` (evenness does not
depend on the remainder convention). -/

def shouldSnippetBeNabc (snippetIndex : Nat) (alternationPeriod : Int) : Bool :=
  if alternationPeriod == 0 then false
  else if snippetIndex == 0 then false
  else (((snippetIndex : Int) - 1).fdiv alternationPeriod) % 2 == 0

/-- Wrapper handling the `NaN` period (`parseInt` failed): every comparison
with `NaN` is false in JS, so the result is `false` for every index. -/
def shouldSnippetBeNabcOpt (snippetIndex : Nat) : Option Int → Bool
  | some p => shouldSnippetBeNabc snippetIndex p
  | none => false

/-! ### `GABCParser.isNabcSnippet`

The classification heuristic is an array of regular expressions; the snippet
is NABC when it is non-empty after trimming and matches any of them.  Each
regex is implemented as a decidable scanner.

```js
if (!snippet || snippet.trim() === '') return false;
const nabcPatterns = [ /[a-z]{3,}[0-9]/, /[a-z]+pt[0-9]/, /lss?[0-9]/,
  /lsim[0-9]/, /qlhh/, /talse[0-9]/, /clShi|clhi/, /st>hi/, /vi>[0-9]/,
  /pf[0-9]/, /``+/, /\b(un|ta|vi)\b/, /[0-9][a-z]/, /g[a-z]{2,}/ ];
return nabcPatterns.some(pattern => pattern.test(snippet));
```
-/

/-- `/[a-z]{3,}[0-9]/` — a match exists iff three lowercase letters are
immediately followed by a digit (the last three letters of a longer run). -/
def patLongDescriptor (l : List Char) : Bool :=
  anySuffix (fun t =>
    match t with
    | a :: b :: c :: d :: _ =>
      isLowerAlpha a && isLowerAlpha b && isLowerAlpha c && isDigitC d
    | _ => false) l

/-- `/[a-z]+pt[0-9]/` — one lowercase letter, then `pt`, then a digit. -/
def patPointDescriptor (l : List Char) : Bool :=
  anySuffix (fun t =>
    match t with
    | a :: b :: c :: d :: _ =>
      isLowerAlpha a && b == 'p' && c == 't' && isDigitC d
    | _ => false) l

/-- `/lss?[0-9]/` — `ls` plus an optional `s`, then a digit. -/
def patLineSpacing (l : List Char) : Bool :=
  anySuffix (fun t =>
    match t with
    | a :: b :: c :: rest =>
      a == 'l' && b == 's' &&
        (isDigitC c ||
          (c == 's' && (match rest with | d :: _ => isDigitC d | [] => false)))
    | _ => false) l

/-- `/lsim[0-9]/`. -/
def patLineSimulation (l : List Char) : Bool :=
  anySuffix (fun t =>
    match t with
    | a :: b :: c :: d :: e :: _ =>
      a == 'l' && b == 's' && c == 'i' && d == 'm' && isDigitC e
    | _ => false) l

/-- `/talse[0-9]/`. -/
def patTalse (l : List Char) : Bool :=
  anySuffix (fun t =>
    match t with
    | a :: b :: c :: d :: e :: f :: _ =>
      a == 't' && b == 'a' && c == 'l' && d == 's' && e == 'e' && isDigitC f
    | _ => false) l

/-- `/vi>[0-9]/`. -/
def patVirga (l : List Char) : Bool :=
  anySuffix (fun t =>
    match t with
    | a :: b :: c :: d :: _ => a == 'v' && b == 'i' && c == '>' && isDigitC d
    | _ => false) l

/-- `/pf[0-9]/`. -/
def patPunctum (l : List Char) : Bool :=
  anySuffix (fun t =>
    match t with
    | a :: b :: c :: _ => a == 'p' && b == 'f' && isDigitC c
    | _ => false) l

/-- `/[0-9][a-z]/`. -/
def patDigitLetter (l : List Char) : Bool :=
  anySuffix (fun t =>
    match t with
    | a :: b :: _ => isDigitC a && isLowerAlpha b
    | _ => false) l

/-- `/g[a-z]{2,}/` — `g` followed by at least two lowercase letters. -/
def patGlyphRun (l : List Char) : Bool :=
  anySuffix (fun t =>
    match t with
    | a :: b :: c :: _ => a == 'g' && isLowerAlpha b && isLowerAlpha c
    | _ => false) l

/-- `/\b(un|ta|vi)\b/` — one of the two-letter tokens with a JS word
boundary on both sides.  `prev` carries the character preceding the current
suffix (`none` at the start of the string). -/
def patWordTokenGo (prev : Option Char) : List Char → Bool
  | a :: b :: rest =>
    (((a == 'u' && b == 'n') || (a == 't' && b == 'a') || (a == 'v' && b == 'i')) &&
      (match prev with | none => true | some p => !isWordChar p) &&
      (match rest with | [] => true | c :: _ => !isWordChar c)) ||
    patWordTokenGo (some a) (b :: rest)
  | _ => false

def patWordToken (l : List Char) : Bool := patWordTokenGo none l

def isNabcSnippet (snippet : String) : Bool :=
  if jsTrim snippet == "" then false
  else
    let l := snippet.data
    patLongDescriptor l || patPointDescriptor l || patLineSpacing l ||
    patLineSimulation l ||
    hasSubstr "qlhh".data l ||                      -- /qlhh/
    patTalse l ||
    (hasSubstr "clShi".data l || hasSubstr "clhi".data l) ||  -- /clShi|clhi/
    hasSubstr "st>hi".data l ||                     -- /st>hi/
    patVirga l || patPunctum l ||
    hasSubstr [backtick, backtick] l ||             -- /``+/
    patWordToken l || patDigitLetter l || patGlyphRun l

/-! ### Diagnostics and `GABCParser.validateAlternation` -/

/-- A produced diagnostic: message, LSP severity (1 = Error, 2 = Warning,
3 = Information) and the optional machine-readable code attached by the
source (absent on diagnostics pushed without a `code` property). -/
structure ParseErrorE where
  message : String
  severity : Nat
  code : Option String
deriving DecidableEq, Repr

/-- `GREGORIO_ERROR_MESSAGES.PIPE_WITHOUT_NABC_LINES`. -/
def pipeWithoutNabcLinesMsg : String :=
  "You used character \"|\" in gabc without setting \"nabc-lines\" parameter. Please set it in your gabc header."

/-- `GREGORIO_ERROR_MESSAGES.NABC_WITHOUT_ALTERNATION`. -/
def nabcWithoutAlternationMsg : String :=
  "NABC notation detected without proper alternation. Verify nabc-lines configuration and alternation pattern."

def pipeWithoutNabcError : ParseErrorE :=
  ⟨pipeWithoutNabcLinesMsg, 1, some "invalid_pipe_without_nabc"⟩

def nabcInGabcOnlyError : ParseErrorE :=
  ⟨nabcWithoutAlternationMsg, 1, some "nabc_in_gabc_only_mode"⟩

/-- The `alternation_violation` message:
`` `Expected ${shouldBeNabc ? 'NABC' : 'GABC'} notation but found
${isNabc ? 'NABC' : 'GABC'} in group snippet ${i + 1}` ``. -/
def alternationViolationMsg (shouldBeNabc isNabc : Bool) (i : Nat) : String :=
  "Expected " ++ (if shouldBeNabc then "NABC" else "GABC") ++
  " notation but found " ++ (if isNabc then "NABC" else "GABC") ++
  " in group snippet " ++ toString (i + 1)

def alternationViolationError (shouldBeNabc isNabc : Bool) (i : Nat) : ParseErrorE :=
  ⟨alternationViolationMsg shouldBeNabc isNabc i, 1, some "alternation_violation"⟩

/-- The per-index comparison performed in the `alternationPeriod > 0` branch
of `validateAlternation`:

```js
const shouldBeNabc = this.shouldSnippetBeNabc(i, alternationPeriod);
const isNabc = this.isNabcSnippet(snippets[i]);
if (shouldBeNabc !== isNabc) { errors.push({... ALTERNATION_VIOLATION}); }
```
-/
def snippetCheck (i : Nat) (snippet : String) (period : Option Int) : List ParseErrorE :=
  let shouldBe := shouldSnippetBeNabcOpt i period
  let isN := isNabcSnippet snippet
  if shouldBe != isN then [alternationViolationError shouldBe isN i] else []

/-- `validateAlternation` restricted to the music content of one syllable
(`parseNoteGroups` always yields exactly one group for it).  `period` is the
result of `parseInt` on the header value (`none` = `NaN`); the JS strict
comparison `alternationPeriod === 0` is true exactly for `some 0`. -/
def validateAlternationContent (content : String) (period : Option Int) : List ParseErrorE :=
  (parseNoteGroups content).flatMap (fun snippets =>
    if period == some 0 then
      (if 1 < snippets.length then [pipeWithoutNabcError] else []) ++
      snippets.flatMap (fun s => if isNabcSnippet s then [nabcInGabcOnlyError] else [])
    else
      (List.range snippets.length).flatMap (fun i =>
        snippetCheck i (snippets.getD i "") period))

/-- Document-level `validateAlternation`: the loop over syllables that carry
music, collecting the per-content errors in order. -/
def validateAlternationDoc (contents : List String) (period : Option Int) : List ParseErrorE :=
  contents.flatMap (fun c => validateAlternationContent c period)

/-! ### Headers and the alternation period of a document

`fallbackParse` builds `HeaderField`s; `extractNABCConfiguration` looks up
`nabc-lines` (case-insensitively) and stores its raw value, and
`validateAlternation` then computes
`parseInt((nabcConfig.headerValue || '0').replace(/;$/, ''), 10)`;
an empty header value is falsy in JS and also falls back to `'0'`. -/

structure HeaderF where
  name : String
  value : String
deriving DecidableEq, Repr

def alternationPeriodOf (headers : List HeaderF) : Option Int :=
  let hv :=
    match headers.find? (fun h => jsToLower h.name == "nabc-lines") with
    | some h => if h.value == "" then "0" else h.value
    | none => "0"
  jsParseInt (stripTrailingSemi hv)

/-! ### Tag scanning (`GABCParser.validateTags`)

The source scans each syllable text with
`/<\/?([a-zA-Z][a-zA-Z0-9]*)\b[^>]*>/g` and lowercases the captured name.
`scanTagEvents` reproduces the scan: at each `<`, an optional `/`, then a
name (one letter followed by a maximal alphanumeric run), then the `\b`
boundary (which fails exactly when the next character is a word character,
i.e. `_`, since the run is maximal), then everything up to the first `>`. -/

structure TagEvent where
  closing : Bool
  name : String
deriving DecidableEq, Repr

/-- Drop characters up to and including the first `>` (`[^>]*>`); `none`
when no `>` remains, in which case the regex match fails. -/
def dropThroughGt : List Char → Option (List Char)
  | [] => none
  | c :: rest => if c == '>' then some rest else dropThroughGt rest

/-- Maximal alphanumeric run (`[a-zA-Z0-9]*`). -/
def spanAlnum : List Char → List Char × List Char
  | [] => ([], [])
  | c :: rest =>
    if isAlphaC c || isDigitC c then
      let (run, after) := spanAlnum rest
      (c :: run, after)
    else ([], c :: rest)

/-- Attempt a tag match on the characters following a `<`.  Returns the
event and the remaining input after the closing `>`, or `none` when the
regex fails at this `<`. -/
def tryTagAt (l : List Char) : Option (TagEvent × List Char) :=
  let (closing, afterSlash) : Bool × List Char :=
    match l with
    | '/' :: t => (true, t)
    | _ => (false, l)
  match afterSlash with
  | c :: t =>
    if isAlphaC c then
      let (run, after) := spanAlnum t
      let boundaryOk : Bool :=
        match after with
        | d :: _ => !isWordChar d
        | [] => true
      if boundaryOk then
        match dropThroughGt after with
        | some rest => some (⟨closing, jsToLower (String.mk (c :: run))⟩, rest)
        | none => none
      else none
    else none
  | [] => none

/-- The full left-to-right scan.  `fuel` bounds the recursion; every step
consumes at least one character, so `l.length` fuel always suffices. -/
def scanTagEventsGo (fuel : Nat) (l : List Char) : List TagEvent :=
  match fuel, l with
  | 0, _ => []
  | _, [] => []
  | fuel + 1, c :: rest =>
    if c == '<' then
      match tryTagAt rest with
      | some (ev, after) => ev :: scanTagEventsGo fuel after
      | none => scanTagEventsGo fuel rest
    else scanTagEventsGo fuel rest

def scanTagEvents (text : String) : List TagEvent :=
  scanTagEventsGo text.data.length text.data

/-- The whitelist of recognized tags (`validTags` in the source). -/
def validTags : List String :=
  ["b", "i", "sc", "ul", "v", "c", "e", "nlba", "pr", "alt"]

/-- `GREGORIO_ERROR_MESSAGES.UNCLOSED_TAG.replace('%s', tag)`. -/
def unclosedTagError (tag : String) : ParseErrorE :=
  ⟨"unclosed tag: <" ++ tag ++ ">", 1, none⟩

/-- `GREGORIO_ERROR_MESSAGES.UNMATCHED_CLOSING_TAG.replace('%s', tag)`. -/
def unmatchedClosingTagError (tag : String) : ParseErrorE :=
  ⟨"unmatched closing tag: </" ++ tag ++ ">", 1, none⟩

/-- The stack is a JS array with `push` at the end: the head of the list is
the bottom, the last element is the top (`tagStack[tagStack.length - 1]`).
A closing event follows the source exactly:

* empty stack → `unmatched_closing_tag`;
* top matches → silent pop;
* otherwise `findIndex` (scanning from the bottom) locates the first entry
  with the same name; if none, `unmatched_closing_tag`; if found at `k`,
  every entry strictly above `k` is reported `unclosed_tag` from the top
  down, and `splice(k)` removes the entries from `k` upward. -/
def stepTagClose (stack : List String) (name : String) : List ParseErrorE × List String :=
  match stack.getLast? with
  | none => ([unmatchedClosingTagError name], stack)
  | some top =>
    if top == name then ([], stack.dropLast)
    else
      match stack.findIdx? (fun t => t == name) with
      | none => ([unmatchedClosingTagError name], stack)
      | some k =>
        (((stack.drop (k + 1)).reverse).map unclosedTagError, stack.take k)

/-- One regex match processed by the loop body: unknown tag names are
skipped (`continue`), openers are pushed, closers go through
`stepTagClose`. -/
def stepTagEvent (stack : List String) (ev : TagEvent) : List ParseErrorE × List String :=
  if !validTags.contains ev.name then ([], stack)
  else if ev.closing then stepTagClose stack ev.name
  else ([], stack ++ [ev.name])

def runTagEvents : List TagEvent → List String → List ParseErrorE × List String
  | [], stack => ([], stack)
  | ev :: evs, stack =>
    let p := stepTagEvent stack ev
    let q := runTagEvents evs p.2
    (p.1 ++ q.1, q.2)

/-- The per-syllable loop: the stack is shared across the whole document. -/
def runTagTexts : List String → List String → List ParseErrorE × List String
  | [], stack => ([], stack)
  | t :: ts, stack =>
    let p := runTagEvents (scanTagEvents t) stack
    let q := runTagTexts ts p.2
    (p.1 ++ q.1, q.2)

/-- `validateTags` over the text contents of the syllables: after all
syllables are processed, every entry left on the stack is reported
`unclosed_tag` from the bottom up (`tagStack.forEach`). -/
def validateTags (texts : List String) : List ParseErrorE :=
  let p := runTagTexts texts []
  p.1 ++ p.2.map unclosedTagError

/-- Proper nesting of a sequence of tag events (a Dyck word over tag
names): the claim's "balanced, properly nested" hypothesis. -/
inductive BalancedTags : List TagEvent → Prop
  | nil : BalancedTags []
  | wrap (t : String) (w : List TagEvent) :
      BalancedTags w → BalancedTags (⟨false, t⟩ :: w ++ [⟨true, t⟩])
  | append (a b : List TagEvent) :
      BalancedTags a → BalancedTags b → BalancedTags (a ++ b)

/-! ### `GABCParser.detectNABC`

```js
const nabcPatterns = [
  /[1-4][a-m](?:[~^_]|(?:<sp>)|(?:<\/sp>))*/, /n[0-9A-F]+/i, /g[a-z]+/i,
  /e[a-z]+/i, /[+-][0-9]+/, /{[^}]+}/, /\[[^\]]+\]/, /![a-z]+!/i, /<[^>]+>/ ];
const nabcSequences = [
  /[1-4][a-m][1-4][a-m]/, /n[0-9A-F]+[1-4][a-m]/i, /g[a-z]+[1-4][a-m]/i,
  /@[1-4][a-m]/ ];
return nabcPatterns.some(p => p.test(musicContent)) ||
       nabcSequences.some(p => p.test(musicContent));
```
-/

def isClefDigit (c : Char) : Bool := '1' ≤ c && c ≤ '4'

/-- `[a-m]`, case-sensitive. -/
def isPitchAM (c : Char) : Bool := 'a' ≤ c && c ≤ 'm'

/-- `[a-m]` under the `i` flag. -/
def isPitchAMI (c : Char) : Bool := isPitchAM c || ('A' ≤ c && c ≤ 'M')

/-- `[0-9A-F]` under the `i` flag. -/
def isHexI (c : Char) : Bool :=
  isDigitC c || ('A' ≤ c && c ≤ 'F') || ('a' ≤ c && c ≤ 'f')

/-- `/[1-4][a-m](?:...)*/` — the trailing group may match empty, so a match
exists iff `[1-4][a-m]` occurs. -/
def dPitchDescriptor (l : List Char) : Bool :=
  anySuffix (fun t =>
    match t with
    | a :: b :: _ => isClefDigit a && isPitchAM b
    | _ => false) l

/-- `/n[0-9A-F]+/i`. -/
def dNeumeDescriptor (l : List Char) : Bool :=
  anySuffix (fun t =>
    match t with
    | a :: b :: _ => (a == 'n' || a == 'N') && isHexI b
    | _ => false) l

/-- `/g[a-z]+/i`. -/
def dGlyphDescriptor (l : List Char) : Bool :=
  anySuffix (fun t =>
    match t with
    | a :: b :: _ => (a == 'g' || a == 'G') && isAlphaC b
    | _ => false) l

/-- `/e[a-z]+/i`. -/
def dEpisemaDescriptor (l : List Char) : Bool :=
  anySuffix (fun t =>
    match t with
    | a :: b :: _ => (a == 'e' || a == 'E') && isAlphaC b
    | _ => false) l

/-- `/[+-][0-9]+/`. -/
def dExplicitSpacing (l : List Char) : Bool :=
  anySuffix (fun t =>
    match t with
    | a :: b :: _ => (a == '+' || a == '-') && isDigitC b
    | _ => false) l

/-- `/o[^c]+c/`-style delimited pattern with a non-empty interior: a match
of `open [^close]+ close` exists at a position iff the first `close` after
the `open` is at distance at least 2. -/
def dDelimited (openC closeC : Char) (l : List Char) : Bool :=
  anySuffix (fun t =>
    match t with
    | a :: rest =>
      a == openC &&
        (match rest.findIdx? (fun c => c == closeC) with
         | some j => decide (1 ≤ j)
         | none => false)
    | [] => false) l

/-- After the opening `!` of `/![a-z]+!/i`: at least one letter, then (the
run being maximal, since a letter can never satisfy the closing `!`) the
character right after the run must be `!`. -/
def dBangTail : List Char → Bool
  | c :: rest =>
    isAlphaC c &&
      (match rest with
       | d :: _ => if isAlphaC d then dBangTail rest else d == '!'
       | [] => false)
  | [] => false

/-- `/![a-z]+!/i`. -/
def dSpecialMarker (l : List Char) : Bool :=
  anySuffix (fun t =>
    match t with
    | a :: rest => a == '!' && dBangTail rest
    | [] => false) l

/-- `/[1-4][a-m][1-4][a-m]/`. -/
def dDoublePitch (l : List Char) : Bool :=
  anySuffix (fun t =>
    match t with
    | a :: b :: c :: d :: _ =>
      isClefDigit a && isPitchAM b && isClefDigit c && isPitchAM d
    | _ => false) l

/-- After at least one character of class `cls` has been consumed, either
`[1-4][a-m]` (with `[a-m]` case-insensitive, these sequences carry the `i`
flag) starts here, or another `cls` character is consumed.  This captures
the backtracking of `cls+[1-4][a-m]`. -/
def dClassPlusThenClefPitch (cls : Char → Bool) : List Char → Bool
  | c :: rest =>
    cls c &&
      ((match rest with
        | d :: e :: _ => isClefDigit d && isPitchAMI e
        | _ => false) ||
       dClassPlusThenClefPitch cls rest)
  | [] => false

/-- `/n[0-9A-F]+[1-4][a-m]/i`. -/
def dNeumePitchSeq (l : List Char) : Bool :=
  anySuffix (fun t =>
    match t with
    | a :: rest => (a == 'n' || a == 'N') && dClassPlusThenClefPitch isHexI rest
    | [] => false) l

/-- `/g[a-z]+[1-4][a-m]/i`. -/
def dGlyphPitchSeq (l : List Char) : Bool :=
  anySuffix (fun t =>
    match t with
    | a :: rest => (a == 'g' || a == 'G') && dClassPlusThenClefPitch isAlphaC rest
    | [] => false) l

/-- `/@[1-4][a-m]/`. -/
def dClefPitch (l : List Char) : Bool :=
  anySuffix (fun t =>
    match t with
    | a :: b :: c :: _ => a == '@' && isClefDigit b && isPitchAM c
    | _ => false) l

def detectNABC (musicContent : String) : Bool :=
  let l := musicContent.data
  dPitchDescriptor l || dNeumeDescriptor l || dGlyphDescriptor l ||
  dEpisemaDescriptor l || dExplicitSpacing l ||
  dDelimited '{' '}' l ||                   -- /{[^}]+}/
  dDelimited '[' ']' l ||                   -- /\[[^\]]+\]/
  dSpecialMarker l ||
  dDelimited '<' '>' l ||                   -- /<[^>]+>/
  dDoublePitch l || dNeumePitchSeq l || dGlyphPitchSeq l || dClefPitch l

/-! ### `GABCParser.parseMusicSection`

The body is scanned with `/([^()]*?)\(([^)]*)\)/g`: the lazy non-paren
prefix becomes the (trimmed) syllable text — an empty trimmed prefix yields
a syllable with no text element — and the group interior (which may contain
`(` but not `)`) becomes the music content.  `isNabc` is
`detectNABC(musicContent)`.  Line/column ranges are not modelled. -/

structure SyllableE where
  text : Option String
  music : String
  isNabc : Bool
deriving DecidableEq, Repr

/-- Interior of a group: characters before the first `)` plus the remaining
input after it (`none` when no `)` exists, so no further match is
possible). -/
def splitAtClose : List Char → Option (List Char × List Char)
  | [] => none
  | c :: rest =>
    if c == ')' then some ([], rest)
    else match splitAtClose rest with
      | some (inner, after) => some (c :: inner, after)
      | none => none

def mkSyllable (rawText : List Char) (music : List Char) : SyllableE :=
  let trimmed := jsTrim (String.mk rawText)
  { text := if trimmed == "" then none else some trimmed
    music := String.mk music
    isNabc := detectNABC (String.mk music) }

/-- The regex scan: `acc` holds (reversed) the non-paren characters
consumed since the last match end.  A `)` before any `(` aborts the current
prefix (the regex cannot match across it) and the engine resumes after it.
`fuel` bounds recursion; every step consumes at least one character. -/
def scanSyllablesGo (fuel : Nat) (acc : List Char) (l : List Char) : List SyllableE :=
  match fuel, l with
  | 0, _ => []
  | _, [] => []
  | fuel + 1, c :: rest =>
    if c == '(' then
      match splitAtClose rest with
      | some (inner, after) => mkSyllable acc.reverse inner :: scanSyllablesGo fuel [] after
      | none => []
    else if c == ')' then scanSyllablesGo fuel [] rest
    else scanSyllablesGo fuel (c :: acc) rest

def scanSyllables (bodyText : String) : List SyllableE :=
  scanSyllablesGo bodyText.data.length [] bodyText.data

/-! ### Quilisma checks (`GABCValidator.validateQuilismaUsage`)

The scan is `/([a-m])([wW])/g`; for each match, an Information suggestion is
emitted unless the preceding character is `!`, and the character after the
match either is an `[a-m]` pitch (warn when not strictly higher) or is
missing/non-pitch (warn `quilisma-no-following-note`). -/

def isQuilismaMark (c : Char) : Bool := c == 'w' || c == 'W'

def quilismaGlyphBreakDiag (note mod : Char) : ParseErrorE :=
  ⟨"Consider adding glyph break (!) before quilisma note for better rendering. Suggestion: add ! before '"
      ++ String.mk [note, mod] ++ "'",
    3, some "quilisma-glyph-break"⟩

def quilismaAscendingDiag (note mod after : Char) : ParseErrorE :=
  ⟨"Quilisma should be followed by a higher note. Currently '"
      ++ String.mk [note, mod] ++ "' is followed by '" ++ String.mk [after]
      ++ "' (same or lower pitch)",
    2, some "quilisma-ascending-motion"⟩

def quilismaNoFollowDiag (note mod : Char) : ParseErrorE :=
  ⟨"Quilisma '" ++ String.mk [note, mod] ++ "' should be followed by a higher note",
    2, some "quilisma-no-following-note"⟩

/-- `prev` is the character right before the current position (`none` at
offset 0); after a 2-character match the scan resumes right after it. -/
def quilismaGo (prev : Option Char) : List Char → List ParseErrorE
  | a :: b :: rest =>
    if isPitchAM a && isQuilismaMark b then
      (if prev == some '!' then [] else [quilismaGlyphBreakDiag a b]) ++
      (match rest with
       | c :: _ =>
         if isPitchAM c then
           if c ≤ a then [quilismaAscendingDiag a b c] else []
         else [quilismaNoFollowDiag a b]
       | [] => [quilismaNoFollowDiag a b]) ++
      quilismaGo (some b) rest
    else quilismaGo (some a) (b :: rest)
  | _ => []

def validateQuilismaUsage (content : String) : List ParseErrorE :=
  quilismaGo none content.data

/-! ### `GABCValidator.validateGABCNotation` / `validateNABCNotation`
and the `isNabc` gate of `validateMusicElement`. -/

/-- `[n-uw-z]` under the `i` flag (the class of `invalidPitchPattern`). -/
def isInvalidPitchClass (c : Char) : Bool :=
  ('n' ≤ c && c ≤ 'u') || ('w' ≤ c && c ≤ 'z') ||
  ('N' ≤ c && c ≤ 'U') || ('W' ≤ c && c ≤ 'Z')

/-- `const validModifiers = 'wWvVsoOqrR'`. -/
def isValidModifier (c : Char) : Bool := ("wWvVsoOqrR" : String).data.any (fun d => d == c)

/-- GABC branch: quilisma diagnostics first, then the invalid-pitch-letter
check (matched characters minus the valid modifiers; one Error listing them
joined by `', '` when any remain). -/
def validateGABCMusic (content : String) : List ParseErrorE :=
  let quilisma := validateQuilismaUsage content
  let matched := content.data.filter isInvalidPitchClass
  let actuallyInvalid := matched.filter (fun c => !isValidModifier c)
  quilisma ++
    (if actuallyInvalid.length > 0 then
      [⟨"Invalid pitch letters in GABC notation: " ++
          jsJoinStr ", " (actuallyInvalid.map (fun c => String.mk [c])),
        1, none⟩]
    else [])

/-- The four lowercase test patterns of `validateNABCNotation`. -/
def hasValidNABCPattern (l : List Char) : Bool :=
  (anySuffix (fun t => match t with
    | a :: b :: _ => isClefDigit a && isPitchAM b
    | _ => false) l) ||                              -- /[1-4][a-m]/
  (anySuffix (fun t => match t with
    | a :: b :: _ => a == 'n' && (isDigitC b || ('a' ≤ b && b ≤ 'f'))
    | _ => false) l) ||                              -- /n[0-9a-f]/
  (anySuffix (fun t => match t with
    | a :: b :: _ => a == 'g' && isLowerAlpha b
    | _ => false) l) ||                              -- /g[a-z]/
  (anySuffix (fun t => match t with
    | a :: b :: _ => a == 'e' && isLowerAlpha b
    | _ => false) l)                                 -- /e[a-z]/

/-- The negated class `[^1-4a-mng0-9e\s\-|]` of the NABC invalid-character
check. -/
def isNABCInvalidChar (c : Char) : Bool :=
  !(isClefDigit c || isPitchAM c || c == 'n' || c == 'g' || isDigitC c ||
    c == 'e' || c.isWhitespace || c == '-' || c == '|')

def validateNABCMusic (content : String) : List ParseErrorE :=
  let base : List ParseErrorE :=
    if !hasValidNABCPattern content.data && jsTrim content != "" then
      [⟨"No valid NABC patterns found in notation", 2, none⟩]
    else []
  let invalidChars := content.data.filter isNABCInvalidChar
  base ++
    (if invalidChars.length > 0 then
      [⟨"Invalid characters in NABC notation: " ++
          jsJoinStr ", " (invalidChars.map (fun c => String.mk [c])),
        1, none⟩]
    else [])

/-- `validateMusicElement`: NABC-flagged music goes to the NABC checks,
everything else to the GABC checks (which include the quilisma rules). -/
def validateMusicElement (syl : SyllableE) : List ParseErrorE :=
  if syl.isNabc then validateNABCMusic syl.music else validateGABCMusic syl.music

/-- `validateMusicNotation` over a parsed body: the scanner always attaches
music to a syllable, so every syllable is checked. -/
def bodyMusicDiags (bodyText : String) : List ParseErrorE :=
  (scanSyllables bodyText).flatMap validateMusicElement

def countByCode (diags : List ParseErrorE) (code : String) : Nat :=
  (diags.filter (fun d => d.code == some code)).length

/-! ### The fallback document splitter (`GABCParser.fallbackParse`)

```js
const lines = text.split('\n');
let musicStartLine = 0;
for (let i = 0; i < lines.length; i++) {
  const line = lines[i].trim();
  if (line === '%%') { musicStartLine = i + 1; break; }
  if (line && !line.startsWith('%')) { ... headers.push(...) ... }
}
const musicText = lines.slice(musicStartLine).join('\n');
```

When no line trims to `%%`, the loop never assigns `musicStartLine`, so the
body is the whole text.  The splitter itself emits no diagnostics. -/

def linesOf (text : String) : List String := jsSplitChar '\n' text

def musicStartLineOf (lines : List String) : Nat :=
  match lines.findIdx? (fun l => jsTrim l == "%%") with
  | some i => i + 1
  | none => 0

/-- One header line: split at the first `:` (which must not be at position
0), trim both sides, strip one trailing `;` from the value and trim again. -/
def parseHeaderLine (line : String) : Option HeaderF :=
  match line.data.findIdx? (fun c => c == ':') with
  | some colonIndex =>
    if colonIndex > 0 then
      let name := jsTrim (String.mk (line.data.take colonIndex))
      let rawValue := jsTrim (String.mk (line.data.drop (colonIndex + 1)))
      let value :=
        if rawValue.data.getLast? == some ';' then jsTrim (String.mk rawValue.data.dropLast)
        else rawValue
      some ⟨name, value⟩
    else none
  | none => none

/-- Header lines are the lines before the `%%` line (all lines when there is
none); empty and `%`-comment lines are skipped. -/
def fallbackHeaders (lines : List String) : List HeaderF :=
  let headerLines :=
    match lines.findIdx? (fun l => jsTrim l == "%%") with
    | some i => lines.take i
    | none => lines
  headerLines.filterMap (fun raw =>
    let line := jsTrim raw
    if line != "" && !(match line.data with | c :: _ => c == '%' | [] => false) then parseHeaderLine line else none)

def musicTextOf (text : String) : String :=
  jsJoinChar '\n' ((linesOf text).drop (musicStartLineOf (linesOf text)))

/-- The syllables of the fallback parse: the music section is parsed from
`musicText`. -/
def fallbackSyllables (text : String) : List SyllableE :=
  scanSyllables (musicTextOf text)

/-! ### `ParseResult.success` (`GABCParser.parse` / `fallbackParse`)

Both return sites compute
`success: allErrors.filter(e => e.severity === 1).length === 0`. -/

def parseSuccessOf (allErrors : List ParseErrorE) : Bool :=
  (allErrors.filter (fun e => e.severity == 1)).length == 0

/-! ### The pitch-descriptor path of `NABCValidator`

`parseComplexGlyph` splits a descriptor on `!` and, when the first part
starts with two lowercase letters, delegates to `parseGlyphDetails`, which
skips the glyph code, consumes `^([SGM\-~>]+\d*)` (modifiers), and then sets
the `pitch` field only when `^(h[a-np])` matches.  `validatePitch` later
checks `/^h[a-np]$/` and emits `nabc-invalid-pitch` on failure. -/

/-- `[SGM\-~>]`. -/
def isModifierChar (c : Char) : Bool :=
  c == 'S' || c == 'G' || c == 'M' || c == '-' || c == '~' || c == '>'

/-- `[a-np]`: the letters `a`–`n` or `p`. -/
def isPitchLetterNP (c : Char) : Bool := ('a' ≤ c && c ≤ 'n') || c == 'p'

/-- `^([SGM\-~>]+\d*)`: when the text starts with a modifier character,
consume the maximal modifier run and then the maximal digit run; otherwise
leave the text unchanged. -/
def skipModifiers (l : List Char) : List Char :=
  match l with
  | c :: _ =>
    if isModifierChar c then (l.dropWhile isModifierChar).dropWhile isDigitC
    else l
  | [] => l

/-- `^(h[a-np])`: the parsed `pitch` field, when the pattern matches. -/
def pitchField (l : List Char) : Option String :=
  match l with
  | h :: c :: _ => if h == 'h' && isPitchLetterNP c then some (String.mk [h, c]) else none
  | _ => none

/-- The `pitch` field that `parseComplexGlyph`/`parseGlyphDetails` assign to
a neume descriptor (`none` when the descriptor yields no glyph or the pitch
pattern does not match). -/
def extractPitch (descriptor : String) : Option String :=
  match splitCharCore '!' descriptor.data with
  | part0 :: _ =>
    (match part0 with
     | a :: b :: rest =>
       if isLowerAlpha a && isLowerAlpha b then pitchField (skipModifiers rest)
       else none
     | _ => none)
  | [] => none

/-- `/^h[a-np]$/`. -/
def pitchPatternFull (p : String) : Bool :=
  match p.data with
  | [h, c] => h == 'h' && isPitchLetterNP c
  | _ => false

/-- `NABCValidator.validatePitch`: one `nabc-invalid-pitch` Error when the
pitch string fails `/^h[a-np]$/`. -/
def validatePitchDiags (pitch : String) : List ParseErrorE :=
  if pitchPatternFull pitch then []
  else [⟨"Invalid pitch descriptor: " ++ pitch, 1, some "nabc-invalid-pitch"⟩]

/-- All `nabc-invalid-pitch` diagnostics the validator can emit for one
neume descriptor: `validateComplexNeume` calls `validatePitch` exactly when
the parsed `pitch` field is present. -/
def invalidPitchDiags (descriptor : String) : List ParseErrorE :=
  match extractPitch descriptor with
  | some p => validatePitchDiags p
  | none => []

/-! ## Theorems -/

/-! ### Shared helper lemmas -/

theorem splitCharCore_ne_nil (sep : Char) (l : List Char) :
    splitCharCore sep l ≠ [] := by
  cases l with
  | nil => simp [splitCharCore]
  | cons c rest =>
    simp only [splitCharCore]
    rcases h : splitCharCore sep rest with _ | ⟨g, gs⟩
    · simp
    · by_cases hc : (c == sep) = true <;> simp [hc]

theorem joinCharCore_splitCharCore (sep : Char) (l : List Char) :
    joinCharCore sep (splitCharCore sep l) = l := by
  induction l with
  | nil => rfl
  | cons c rest ih =>
    simp only [splitCharCore]
    rcases h : splitCharCore sep rest with _ | ⟨g, gs⟩
    · exact absurd h (splitCharCore_ne_nil sep rest)
    · rw [h] at ih
      by_cases hc : (c == sep) = true
      · have hcs : c = sep := by simpa using hc
        simp only [hc, if_true]
        cases gs <;> simp_all [joinCharCore]
      · simp only [hc, if_false]
        cases gs <;> simp_all [joinCharCore]

theorem string_mk_data (s : String) : String.mk s.data = s := rfl

theorem jsJoinChar_jsSplitChar (sep : Char) (s : String) :
    jsJoinChar sep (jsSplitChar sep s) = s := by
  unfold jsJoinChar jsSplitChar
  rw [List.map_map]
  have hmap : (String.data ∘ String.mk) = id := by
    funext l; rfl
  rw [hmap, List.map_id, joinCharCore_splitCharCore]

/-! ### C9: round trip of the snippet split -/

/-- Claim C9: for every music group content string, joining the ordered
snippet list produced by the snippet splitter with the separator `|`
exactly reconstructs the original group content. -/
theorem c9_split_join_roundtrip (musicContent : String) :
    jsJoinChar '|' (splitSnippets musicContent) = musicContent := by
  unfold splitSnippets
  by_cases h : containsChar musicContent '|'
  · simp only [h, if_true]
    exact jsJoinChar_jsSplitChar '|' musicContent
  · simp only [h, if_false]
    show String.mk (joinCharCore '|' [musicContent.data]) = musicContent
    rfl

/-! ### C1: the alternation expectation formula -/

/-- Claim C1: for every declared alternation period `N > 0`,
`shouldSnippetBeNabc` expects snippet index 0 to be GABC (never NABC), and
for every index `i ≥ 1` it expects NABC exactly when the block number
`⌊(i - 1) / N⌋` is even (and GABC when it is odd).  The expectation is a
pure function of the index and the period, so it is the same for every
music group. -/
theorem c1_alternation_block_parity (N : Nat) (hN : 0 < N) :
    shouldSnippetBeNabc 0 (N : Int) = false ∧
    ∀ i : Nat, 1 ≤ i →
      (shouldSnippetBeNabc i (N : Int) = true ↔ Even ((i - 1) / N)) := by
  have hNz : ((N : Int) == 0) = false := by
    simp [hN.ne']
  constructor
  · simp [shouldSnippetBeNabc, hNz]
  · intro i hi
    have hiz : (i == 0) = false := by
      simp [Nat.pos_iff_ne_zero.mp hi]
    simp only [shouldSnippetBeNabc, hNz, hiz, Bool.false_eq_true, if_false]
    rw [beq_iff_eq]
    have h1 : (i : Int) - 1 = ((i - 1 : Nat) : Int) := by
      rw [Nat.cast_sub hi]; simp
    rw [h1, Int.fdiv_eq_tdiv (by positivity) (by positivity), ← Int.ofNat_tdiv]
    rw [← Int.even_iff, Int.even_coe_nat]

/-- Witness for C1 at `N = 2`, `i = 3`. -/
theorem c1_witness :
    shouldSnippetBeNabc 0 ((2 : Nat) : Int) = false ∧
    (shouldSnippetBeNabc 3 ((2 : Nat) : Int) = true ↔ Even ((3 - 1) / 2)) := by
  have h := c1_alternation_block_parity 2 (by decide)
  exact ⟨h.1, h.2 3 (by decide)⟩

/-! ### C2: pipe without `nabc-lines` -/

/-- Claim C2: when the document's `nabc-lines` header is absent or parses to
0 (so the computed alternation period is 0), every music group whose
content splits into more than one `|`-delimited snippet makes
`validateAlternation` emit an Error diagnostic with the exact upstream
message and the code `invalid_pipe_without_nabc`, regardless of the
snippets' content. -/
theorem c2_pipe_without_nabc (headers : List HeaderF) (contents : List String)
    (content : String) (hp : alternationPeriodOf headers = some 0)
    (hmem : content ∈ contents)
    (hlen : 1 < (splitSnippets content).length) :
    pipeWithoutNabcError ∈ validateAlternationDoc contents (alternationPeriodOf headers) ∧
    pipeWithoutNabcError.message =
      "You used character \"|\" in gabc without setting \"nabc-lines\" parameter. Please set it in your gabc header." ∧
    pipeWithoutNabcError.severity = 1 ∧
    pipeWithoutNabcError.code = some "invalid_pipe_without_nabc" := by
  refine ⟨?_, rfl, rfl, rfl⟩
  rw [hp]
  unfold validateAlternationDoc
  rw [List.mem_flatMap]
  refine ⟨content, hmem, ?_⟩
  simp [validateAlternationContent, parseNoteGroups, hlen]

/-- Witness for C2: the headers are absent and the group is `f|g|h`
(scenario A's group content). -/
theorem c2_witness :
    alternationPeriodOf [] = some 0 ∧
    pipeWithoutNabcError ∈ validateAlternationDoc ["f|g|h"] (alternationPeriodOf []) := by
  have h := c2_pipe_without_nabc [] ["f|g|h"] "f|g|h" (by decide) (by decide) (by decide)
  exact ⟨by decide, h.1⟩

/-! ### C3: empty snippets in alternation checks

The heuristic classifies an empty snippet as non-NABC, but the alternation
loop compares that classification against the expectation, so an empty
snippet at an index where NABC is expected *is* reported as an
`alternation_violation` — refuting the claim that it never causes one. -/

/-- Counterexample to claim C3: in the group `f||g` with period 1, the empty
middle snippet (index 1) produces an `alternation_violation` diagnostic
("snippet 2" in the 1-based message). -/
theorem c3_empty_snippet_counterexample :
    splitSnippets "f||g" = ["f", "", "g"] ∧
    validateAlternationContent "f||g" (some 1) = [alternationViolationError true false 1] ∧
    alternationViolationError true false 1 =
      ⟨"Expected NABC notation but found GABC in group snippet 2", 1,
        some "alternation_violation"⟩ := by
  decide

/-- Claim C3 (amended): for every period `N > 0`, an empty snippet is
classified as non-NABC by `isNabcSnippet` ("neutral" classification), so at
a snippet index where GABC is expected it causes no diagnostic; but at an
index where NABC is expected it is reported as an `alternation_violation`
(expected NABC, found GABC). -/
theorem c3_empty_snippet_neutrality_amended (period : Int) (_hp : 0 < period)
    (i : Nat) (s : String) (hs : jsTrim s = "") :
    isNabcSnippet s = false ∧
    snippetCheck i s (some period) =
      (if shouldSnippetBeNabc i period then [alternationViolationError true false i]
       else []) := by
  have hns : isNabcSnippet s = false := by
    unfold isNabcSnippet
    simp [hs]
  refine ⟨hns, ?_⟩
  unfold snippetCheck shouldSnippetBeNabcOpt
  rw [hns]
  cases h : shouldSnippetBeNabc i period <;> simp [h]

/-- Witness for the amended C3 at period 1, index 1, the empty snippet. -/
theorem c3_witness :
    isNabcSnippet "" = false ∧
    snippetCheck 1 "" (some 1) = [alternationViolationError true false 1] := by
  have h := c3_empty_snippet_neutrality_amended 1 (by decide) 1 "" (by decide)
  refine ⟨h.1, ?_⟩
  rw [h.2]
  decide

/-! ### C4: tag balance -/

theorem runTagEvents_append (a b : List TagEvent) (st : List String) :
    runTagEvents (a ++ b) st =
      ((runTagEvents a st).1 ++ (runTagEvents b (runTagEvents a st).2).1,
        (runTagEvents b (runTagEvents a st).2).2) := by
  induction a generalizing st with
  | nil => simp [runTagEvents]
  | cons e es ih => simp [runTagEvents, ih]

/-- Events whose tag name is not whitelisted are skipped by the loop, so the
machine computes the same answer on the filtered event list. -/
theorem runTagEvents_filter (evs : List TagEvent) (st : List String) :
    runTagEvents evs st =
      runTagEvents (evs.filter (fun e => validTags.contains e.name)) st := by
  induction evs generalizing st with
  | nil => rfl
  | cons e es ih =>
    by_cases h : e.name ∈ validTags
    · simp [runTagEvents, List.filter_cons, h, ih]
    · have hstep : stepTagEvent st e = ([], st) := by
        simp [stepTagEvent, h]
      simp [runTagEvents, List.filter_cons, h, hstep, ih]

/-- On a balanced (properly nested) sequence of whitelisted events the stack
machine emits nothing and restores the stack. -/
theorem runTagEvents_balanced (evs : List TagEvent) (hb : BalancedTags evs)
    (hw : ∀ e ∈ evs, e.name ∈ validTags) (st : List String) :
    runTagEvents evs st = ([], st) := by
  induction hb generalizing st with
  | nil => rfl
  | wrap t w _ ih =>
    have ht : t ∈ validTags := hw ⟨false, t⟩ (by simp)
    have hwsub : ∀ e ∈ w, e.name ∈ validTags := by
      intro e he
      exact hw e (by simp [he])
    have hstep : stepTagEvent st ⟨false, t⟩ = ([], st ++ [t]) := by
      simp [stepTagEvent, ht]
    have hclose : stepTagEvent (st ++ [t]) ⟨true, t⟩ = ([], st) := by
      simp [stepTagEvent, ht, stepTagClose, List.getLast?_concat, List.dropLast_concat]
    show runTagEvents (⟨false, t⟩ :: (w ++ [⟨true, t⟩])) st = ([], st)
    simp only [runTagEvents, hstep]
    rw [runTagEvents_append, ih hwsub]
    simp [runTagEvents, hclose]
  | append a b _ _ iha ihb =>
    rw [runTagEvents_append,
      iha (fun e he => hw e (by simp [he])),
      ihb (fun e he => hw e (by simp [he]))]
    simp

/-- Claim C4: a syllable text whose whitelisted tags form a balanced,
properly nested sequence yields zero tag diagnostics; for the single
swapped closing order `<b><i></b></i>` the validator emits exactly one
`unclosed_tag` diagnostic (for the `<i>` opened inside `<b>`, reported once)
together with one `unmatched_closing_tag` for the dangling `</i>` left after
the repair removed the stack entries from `<b>` upward; no diagnostic
mentions `b`, the tag that closed correctly. -/
theorem c4_tag_balance (text : String)
    (hbal : BalancedTags
      ((scanTagEvents text).filter (fun e => validTags.contains e.name))) :
    validateTags [text] = [] ∧
    validateTags ["<b><i></b></i>"] =
      [unclosedTagError "i", unmatchedClosingTagError "i"] ∧
    ((validateTags ["<b><i></b></i>"]).filter
      (fun d => d.message == "unclosed tag: <i>")).length = 1 := by
  refine ⟨?_, by decide, by decide⟩
  have hrun : runTagEvents (scanTagEvents text) [] = ([], []) := by
    rw [runTagEvents_filter]
    refine runTagEvents_balanced _ hbal ?_ []
    intro e he
    simpa using (List.mem_filter.mp he).2
  simp [validateTags, runTagTexts, hrun]

/-- Witness for C4: the properly nested text `<b><i></i></b>`. -/
theorem c4_witness :
    BalancedTags
      ((scanTagEvents "<b><i></i></b>").filter (fun e => validTags.contains e.name)) ∧
    validateTags ["<b><i></i></b>"] = [] := by
  have hev : (scanTagEvents "<b><i></i></b>").filter
      (fun e => validTags.contains e.name) =
      [⟨false, "b"⟩, ⟨false, "i"⟩, ⟨true, "i"⟩, ⟨true, "b"⟩] := by decide
  have hb : BalancedTags [⟨false, "b"⟩, ⟨false, "i"⟩, ⟨true, "i"⟩, ⟨true, "b"⟩] :=
    BalancedTags.wrap "b" [⟨false, "i"⟩, ⟨true, "i"⟩]
      (BalancedTags.wrap "i" [] BalancedTags.nil)
  refine ⟨hev ▸ hb, (c4_tag_balance "<b><i></i></b>" (hev ▸ hb)).1⟩

/-! ### C5: quilisma rules at the claim's two inputs

Evaluating the music-validation pipeline (`parseMusicSection` with
`detectNABC`, then `validateMusicElement`) at the claim's fixtures: the Good
input produces zero quilisma diagnostics, but the Bad input produces only
one glyph-break suggestion and one ascending-motion warning, not two of
each: `detectNABC` classifies `gwf` as NABC (it matches `/g[a-z]+/i`), so
the quilisma checks never run on it. -/

/-- Claim C5, evaluated on the code: counts of `quilisma-glyph-break` and
`quilisma-ascending-motion` diagnostics for the two bodies of the claim; the
Bad body yields 1 and 1 (the claim and the repository's own quilisma tests
expect 2 and 2) because `detectNABC "gwf" = true` diverts `gwf` away from
the GABC quilisma checks. -/
theorem c5_quilisma_pipeline_eval :
    countByCode (bodyMusicDiags "Good(g!wh)example(f!wi)") "quilisma-glyph-break" = 0 ∧
    countByCode (bodyMusicDiags "Good(g!wh)example(f!wi)") "quilisma-ascending-motion" = 0 ∧
    countByCode (bodyMusicDiags "Bad(gwf)worse(fwe)") "quilisma-glyph-break" = 1 ∧
    countByCode (bodyMusicDiags "Bad(gwf)worse(fwe)") "quilisma-ascending-motion" = 1 ∧
    detectNABC "gwf" = true ∧ detectNABC "fwe" = false := by
  decide

/-! ### C6: missing `%%` separator -/

/-- Counterexample to claim C6: the text `Test(f)` has no `%%` line, yet the
fallback parse produces a body with one syllable — the body is not empty. -/
theorem c6_missing_separator_counterexample :
    (∀ l ∈ linesOf "Test(f)", jsTrim l ≠ "%%") ∧
    (fallbackSyllables "Test(f)").length = 1 := by
  decide

/-- Claim C6 (amended): when no line of the document trims to `%%`, the
splitter raises no error for the missing separator (it has no diagnostic
output at all) and `musicStartLine` stays 0, so the *entire document text*
becomes the music section; the body is therefore empty only when the whole
text contains no parenthesized group. -/
theorem c6_missing_separator_amended (text : String)
    (h : ∀ l ∈ linesOf text, jsTrim l ≠ "%%") :
    musicStartLineOf (linesOf text) = 0 ∧ musicTextOf text = text := by
  have hidx : (linesOf text).findIdx? (fun l => jsTrim l == "%%") = none := by
    rw [List.findIdx?_eq_none_iff]
    intro l hl
    simpa using h l hl
  have hstart : musicStartLineOf (linesOf text) = 0 := by
    unfold musicStartLineOf
    rw [hidx]
  refine ⟨hstart, ?_⟩
  unfold musicTextOf
  rw [hstart, List.drop_zero]
  exact jsJoinChar_jsSplitChar '\n' text

/-- Witness for the amended C6 at a concrete separator-free document. -/
theorem c6_witness :
    musicStartLineOf (linesOf "name: Test;") = 0 ∧
    musicTextOf "name: Test;" = "name: Test;" :=
  c6_missing_separator_amended "name: Test;" (by decide)

/-! ### C7: the invalid-pitch diagnostic is unreachable -/

/-- Counterexample to claim C7: the descriptor `clhz` carries `hz` in its
pitch position, which fails the validator's own `/^h[a-np]$/` check, yet
the validator emits no `nabc-invalid-pitch` diagnostic for it: the parse
only ever populates the pitch field with text already matching `h[a-np]`. -/
theorem c7_invalid_pitch_counterexample :
    String.mk ("clhz".data.drop 2) = "hz" ∧
    validatePitchDiags "hz" =
      [⟨"Invalid pitch descriptor: hz", 1, some "nabc-invalid-pitch"⟩] ∧
    invalidPitchDiags "clhz" = [] := by
  decide

theorem pitchField_sound (l : List Char) (p : String) (hp : pitchField l = some p) :
    pitchPatternFull p = true := by
  unfold pitchField at hp
  split at hp
  · split at hp
    · obtain rfl : String.mk _ = p := Option.some.inj hp
      next a b _ hc => simpa [pitchPatternFull] using hc
    · cases hp
  · cases hp

/-- Claim C7 (amended): every pitch field the parser extracts already
matches `h[a-np]`, so `validatePitch` always succeeds and the validator
never emits a `nabc-invalid-pitch` diagnostic for any neume descriptor;
non-conforming pitch text is silently skipped rather than flagged. -/
theorem c7_no_invalid_pitch_amended (descriptor : String) :
    invalidPitchDiags descriptor = [] ∧
    ∀ p, extractPitch descriptor = some p → pitchPatternFull p = true := by
  have hext : ∀ p, extractPitch descriptor = some p → pitchPatternFull p = true := by
    intro p hp
    unfold extractPitch at hp
    split at hp
    · split at hp
      · split at hp
        · exact pitchField_sound _ _ hp
        · cases hp
      · cases hp
    · cases hp
  refine ⟨?_, hext⟩
  unfold invalidPitchDiags
  cases he : extractPitch descriptor with
  | none => rfl
  | some p => simp [validatePitchDiags, hext p he]

/-! ### C8: end-to-end scenario B -/

/-- Claim C8: with header `nabc-lines: 2;` the group
`ce/fgf|peGlsa6tohl|toppt2lss2lsim2` has snippet 0 classified GABC and
snippets 1 and 2 classified NABC, and the alternation validator reports no
violation for it. -/
theorem c8_scenario_b :
    alternationPeriodOf [⟨"nabc-lines", "2"⟩] = some 2 ∧
    splitSnippets "ce/fgf|peGlsa6tohl|toppt2lss2lsim2" =
      ["ce/fgf", "peGlsa6tohl", "toppt2lss2lsim2"] ∧
    ["ce/fgf", "peGlsa6tohl", "toppt2lss2lsim2"].map isNabcSnippet =
      [false, true, true] ∧
    validateAlternationDoc ["ce/fgf|peGlsa6tohl|toppt2lss2lsim2"]
      (alternationPeriodOf [⟨"nabc-lines", "2"⟩]) = [] := by
  decide

/-! ### C10: `success` is exactly "no Error-severity entry" -/

/-- Claim C10: the `ParseResult` success flag computed by `parse` and
`fallbackParse` (`allErrors.filter(e => e.severity === 1).length === 0`) is
`true` iff the error list has no entry of Error severity (1); Warning (2)
and Information (3) entries never make it `false`. -/
theorem c10_success_iff_no_errors (allErrors : List ParseErrorE) :
    parseSuccessOf allErrors = true ↔ ∀ e ∈ allErrors, e.severity ≠ 1 := by
  simp [parseSuccessOf, List.length_eq_zero, List.filter_eq_nil_iff]

end GregorioLSP
